import Mathlib

/-!
Verification of the wlsunset-rs daemon (Wayland screen-temperature tool).

This file shallowly embeds the program's scheduling module (`scheduling.rs`),
color engine (`color.rs`), main-loop override/deadline logic (`main.rs`) and
the Wayland output/gamma bookkeeping (`wayland.rs`) into Lean, and settles the
specification claims against those embeddings.

Conventions:
* Rust `i64`/`i32` values are modelled as `Int` (overflow never occurs on the
  inputs considered); Rust `%` is truncated remainder, `Int.tmod`; Rust `/` on
  integers is truncated division, `Int.tdiv`.
* The external `sunrise` crate's solar computation and `chrono`'s
  timestamp-validity test are external library code; they are passed in as
  explicit parameters (`solar`, `tsOk`) so theorems quantify over them.
* `f64`/`f32` arithmetic in `temperature_for` is modelled over `ℚ`; the gamma
  ramp pipeline of `color.rs` is modelled over `ℝ` with an explicit
  NaN/infinity-aware value type mirroring IEEE behaviour on the reachable
  inputs (see `Fl`).
-/

deriving instance DecidableEq for Except

namespace WlSunset

/-- Errors produced by `compute_day_stops` / `next_sunrise_timestamp`
(`anyhow!("invalid coordinates")`, `anyhow!("invalid timestamp")`). -/
inductive StopsError where
  | invalidCoordinates : StopsError
  | invalidTimestamp : StopsError
deriving DecidableEq, Repr

/-- `DayStops` from scheduling.rs: four unix timestamps. -/
structure DayStops where
  dawn : Int
  sunrise : Int
  sunset : Int
  night : Int
deriving DecidableEq, Repr

/-- `DayPhase` from scheduling.rs. -/
inductive DayPhase where
  | night : DayPhase
  | sunriseP : DayPhase
  | day : DayPhase
  | sunsetP : DayPhase
deriving DecidableEq, Repr

/-- `ModeArg` from cli.rs. -/
inductive ModeArg where
  | auto : ModeArg
  | day : ModeArg
  | night : ModeArg
  | sunset : ModeArg
deriving DecidableEq, Repr

/-- `TrayOverride` from scheduling.rs. -/
structure TrayOverride where
  mode : ModeArg
  expires_at : Int
deriving DecidableEq, Repr

/-- Modelled from the spec: the `sunrise` crate's `Coordinates::new` (not part
of this repository) accepts latitude in [-90, 90] and longitude in [-180, 180]
and returns `None` otherwise ("Fails with InvalidCoordinates if lat∉[−90,90]
or lon∉[−180,180]"). -/
def coordsValid (lat lon : ℚ) : Bool :=
  (-90 ≤ lat && lat ≤ 90) && (-180 ≤ lon && lon ≤ 180)

/-- `chrono::DateTime::from_timestamp(now, 0).date_naive()` for an in-range
timestamp yields the proleptic-Gregorian UTC date, i.e. epoch day
`⌊now / 86400⌋` (floor division, correct for negative timestamps). -/
def epochDay (t : Int) : Int := Int.fdiv t 86400

/-- The type of the external solar computation
(`SolarDay::new(coords, date).event_time(Sunrise/Sunset).timestamp()`):
given latitude, longitude and the epoch day it returns the
(sunrise, sunset) unix timestamps.  It is library code outside this
repository, so it is a parameter of the embedding. -/
abbrev SolarFn := ℚ → ℚ → Int → Int × Int

/-- The type of `chrono`'s timestamp-range test: `DateTime::from_timestamp`
returns `Some` exactly on its representable range.  External library code,
hence a parameter. -/
abbrev TsOk := Int → Bool

/-- `compute_day_stops` from scheduling.rs.

```
let midnight = now - (now % 86400);
if let Some((sunrise_s, sunset_s)) = manual {
    let dawn = sunrise_s - duration;
    let night = sunset_s + duration;
    return Ok(DayStops { dawn: midnight + dawn, sunrise: midnight + sunrise_s,
                         sunset: midnight + sunset_s, night: midnight + night });
}
let coords = Coordinates::new(lat, lon).ok_or(...)?;          -- invalid coordinates
let date = chrono::DateTime::from_timestamp(now, 0).ok_or(...)?  -- invalid timestamp
    .date_naive();
let solar_day = SolarDay::new(coords, date);
Ok(DayStops { dawn: sunrise_ts - duration, sunrise: sunrise_ts,
              sunset: sunset_ts, night: sunset_ts + duration })
```
Rust `%` on `i64` is truncated remainder (`Int.tmod`). -/
def compute_day_stops (solar : SolarFn) (tsOk : TsOk) (now : Int) (lat lon : ℚ)
    (duration : Int) (manual : Option (Int × Int)) : Except StopsError DayStops :=
  let midnight := now - Int.tmod now 86400
  match manual with
  | some (sunrise_s, sunset_s) =>
      let dawn := sunrise_s - duration
      let night := sunset_s + duration
      Except.ok { dawn := midnight + dawn, sunrise := midnight + sunrise_s,
                  sunset := midnight + sunset_s, night := midnight + night }
  | none =>
      if coordsValid lat lon then
        if tsOk now then
          let st := solar lat lon (epochDay now)
          Except.ok { dawn := st.1 - duration, sunrise := st.1,
                      sunset := st.2, night := st.2 + duration }
        else Except.error StopsError.invalidTimestamp
      else Except.error StopsError.invalidCoordinates

/-- `next_sunrise_timestamp` from scheduling.rs.

```
if now < current.sunrise { return Ok(current.sunrise); }
let current_dt = chrono::DateTime::from_timestamp(now, 0).ok_or(...)?;
let tomorrow_dt = current_dt + Duration::days(1);
let tomorrow = tomorrow_dt.timestamp();
let next = compute_day_stops(tomorrow, lat, lon, duration, manual)?;
Ok(next.sunrise)
```
`chrono::Duration::days(1)` added to a `DateTime<Utc>` advances the
timestamp by exactly 86400 seconds. -/
def next_sunrise_timestamp (solar : SolarFn) (tsOk : TsOk) (now : Int)
    (current : DayStops) (lat lon : ℚ) (duration : Int)
    (manual : Option (Int × Int)) : Except StopsError Int :=
  if now < current.sunrise then Except.ok current.sunrise
  else
    if tsOk now then
      (compute_day_stops solar tsOk (now + 86400) lat lon duration manual).map
        (fun st => st.sunrise)
    else Except.error StopsError.invalidTimestamp

/-- Rust `f64::round`: round half away from zero. -/
def rustRoundQ (x : ℚ) : Int :=
  if 0 ≤ x then ⌊x + 1/2⌋ else -⌊-x + 1/2⌋

/-- `interpolate` from scheduling.rs, with the `f64` arithmetic modelled
over `ℚ`.

```
if start == stop { return b; }
let t = ((now - start) as f64 / (stop - start) as f64).clamp(0.0, 1.0);
let v = a as f64 + (b - a) as f64 * t;
v.round() as i32
``` -/
def interpolate (now start stop a b : Int) : Int :=
  if start = stop then b
  else
    let t : ℚ := max 0 (min 1 (((now - start : Int) : ℚ) / ((stop - start : Int) : ℚ)))
    rustRoundQ ((a : ℚ) + ((b - a : Int) : ℚ) * t)

/-- `temperature_for` from scheduling.rs. -/
def temperature_for (now : Int) (stops : DayStops) (low high : Int) : Int :=
  if now < stops.dawn then low
  else if now < stops.sunrise then interpolate now stops.dawn stops.sunrise low high
  else if now < stops.sunset then high
  else if now < stops.night then interpolate now stops.sunset stops.night high low
  else low

/-- `phase_for` from scheduling.rs. -/
def phase_for (now : Int) (stops : DayStops) : DayPhase :=
  if now < stops.dawn then DayPhase.night
  else if now < stops.sunrise then DayPhase.sunriseP
  else if now < stops.sunset then DayPhase.day
  else if now < stops.night then DayPhase.sunsetP
  else DayPhase.night

/-! ## Main-loop override handling (main.rs)

Per tick, main.rs computes `temp = temperature_for(...)`,
`natural_phase = phase_for(...)`, `applied_phase = natural_phase`, clears an
expired override (`now >= state.expires_at`), and then, if an override is
still present, pins the applied phase and temperature according to its mode.
The functions below embed exactly that segment of the loop body. -/

/-- The override-relevant part of one tick of `main`'s loop: given the
current override state, returns the applied phase, the applied temperature
and the override state after the expiry check.

```
let override_expired = tray_override.as_ref().map_or(false, |s| now >= s.expires_at);
if override_expired { tray_override = None; }
if let Some(state) = tray_override.as_ref() {
    match state.mode {
        ModeArg::Auto => {}
        ModeArg::Day => { applied_phase = DayPhase::Day; temp = opts.high_temp; }
        ModeArg::Night => { applied_phase = DayPhase::Night; temp = opts.low_temp; }
        ModeArg::Sunset => { applied_phase = DayPhase::Sunset;
                            temp = (opts.low_temp + opts.high_temp) / 2; }
    }
}
```
Rust `i32` division truncates toward zero (`Int.tdiv`). -/
def tick_apply (now : Int) (stops : DayStops) (low high : Int)
    (ov : Option TrayOverride) : DayPhase × Int × Option TrayOverride :=
  let temp := temperature_for now stops low high
  let naturalPhase := phase_for now stops
  let expired := match ov with
    | some st => decide (now ≥ st.expires_at)
    | none => false
  let ov := if expired then none else ov
  match ov with
  | none => (naturalPhase, temp, none)
  | some st =>
      match st.mode with
      | ModeArg.auto => (naturalPhase, temp, some st)
      | ModeArg.day => (DayPhase.day, high, some st)
      | ModeArg.night => (DayPhase.night, low, some st)
      | ModeArg.sunset => (DayPhase.sunsetP, Int.tdiv (low + high) 2, some st)

/-- The `mode_rx.recv()` arm of `main`'s `tokio::select!`: an `Auto` command
destroys the current override; any pinned command replaces it with a fresh
override whose `expires_at` is `next_sunrise_timestamp` evaluated at the
tick's `now` and `stops`. -/
def handle_mode_command (solar : SolarFn) (tsOk : TsOk) (now : Int)
    (stops : DayStops) (lat lon : ℚ) (duration : Int)
    (manual : Option (Int × Int)) (mode : ModeArg)
    (_ov : Option TrayOverride) : Except StopsError (Option TrayOverride) :=
  match mode with
  | ModeArg.auto => Except.ok none
  | m =>
      (next_sunrise_timestamp solar tsOk now stops lat lon duration manual).map
        (fun e => some { mode := m, expires_at := e })

/-! ## Wake deadline (main.rs) -/

/-- The next wake deadline computed at the end of each tick:

```
let next = if now < stops.dawn { stops.dawn }
    else if now < stops.sunrise { now + 10 }
    else if now < stops.sunset { stops.sunset }
    else if now < stops.night { now + 10 }
    else { ((now / 86400) + 1) * 86400 };
```
Rust `i64` division truncates toward zero (`Int.tdiv`). -/
def next_deadline (now : Int) (stops : DayStops) : Int :=
  if now < stops.dawn then stops.dawn
  else if now < stops.sunrise then now + 10
  else if now < stops.sunset then stops.sunset
  else if now < stops.night then now + 10
  else (Int.tdiv now 86400 + 1) * 86400

/-- `let wait_ms = ((next - now).max(1) * 1000) as i64;` -/
def wait_ms (now : Int) (stops : DayStops) : Int :=
  max (next_deadline now stops - now) 1 * 1000

/-- The UTC midnight immediately after `now` in the code's epoch-second
arithmetic: `((now / 86400) + 1) * 86400` with truncated division. -/
def nextMidnight (now : Int) : Int := (Int.tdiv now 86400 + 1) * 86400

/-! ## Color engine (color.rs)

The ramp pipeline runs on `f64`/`f32`.  All reachable finite values are
modelled as exact reals; the two non-finite values that the pipeline can
produce — NaN (from `0.0 / 0.0` when `ramp_size == 1`) and +∞ (from
`x / 0.0`, `x > 0`) — are modelled explicitly by `Fl`, together with the
IEEE behaviour of `powf`, and of Rust's NaN-ignoring `f32::max`/`f32::min`,
on those values.  Negative infinity cannot arise (all numerators,
multiplicands and exponents used are nonnegative on the reachable inputs). -/

/-- An IEEE floating-point value as produced by the ramp pipeline:
NaN, +∞, or a finite value (modelled exactly as a real). -/
inductive Fl where
  | nan : Fl
  | pinf : Fl
  | fin : ℝ → Fl

/-- IEEE division `a / b` for nonnegative `a`: `0.0 / 0.0` is NaN,
`a / 0.0` is +∞ for `a > 0`, otherwise exact. -/
noncomputable def fdivF (a b : ℝ) : Fl :=
  if b = 0 then (if a = 0 then Fl.nan else Fl.pinf) else Fl.fin (a / b)

/-- IEEE multiplication by a nonnegative finite scalar `c`:
`NaN * c = NaN`, `+∞ * 0 = NaN`, `+∞ * c = +∞` for `c > 0`. -/
noncomputable def mulF : Fl → ℝ → Fl
  | Fl.nan, _ => Fl.nan
  | Fl.pinf, c => if c ≤ 0 then Fl.nan else Fl.pinf
  | Fl.fin x, c => Fl.fin (x * c)

/-- IEEE `powf x e` on the reachable inputs (`x` NaN, +∞, or a nonnegative
finite real): `powf NaN e = NaN` for `e ≠ 0` (and 1 for `e = 0`),
`powf ∞ e` is 1, 0 or ∞ according to the sign of `e`; finite nonnegative
bases follow the real power `Real.rpow`. -/
noncomputable def powfF : Fl → ℝ → Fl
  | Fl.nan, e => if e = 0 then Fl.fin 1 else Fl.nan
  | Fl.pinf, e => if e = 0 then Fl.fin 1 else if e < 0 then Fl.fin 0 else Fl.pinf
  | Fl.fin x, e => Fl.fin (x ^ e)

/-- `corrected.max(0.0).min(1.0)` from color.rs.  Rust's `f32::max` and
`f32::min` ignore NaN (return the other operand), so
`NaN.max(0.0).min(1.0) = 0.0` and `∞.max(0.0).min(1.0) = 1.0`. -/
noncomputable def clamp01F : Fl → ℝ
  | Fl.nan => 0
  | Fl.pinf => 1
  | Fl.fin x => min (max x 0) 1

/-- Rust `f64::round`: round half away from zero. -/
noncomputable def rustRoundR (x : ℝ) : Int :=
  if 0 ≤ x then ⌊x + 1/2⌋ else -⌊-x + 1/2⌋

/-- Rust float → `u16` `as` cast: saturating. -/
def toU16 (n : Int) : ℕ := (min (max n 0) 65535).toNat

/-- `tempergb::Color`: an RGB whitepoint with `u8` channels. -/
structure Rgb where
  r : ℕ
  g : ℕ
  b : ℕ
deriving DecidableEq, Repr

/-- One channel entry of the gamma table, from the body of the loop in
`fill_gamma_table` (color.rs):

```
let val = i as f64 / (ramp_size as f64 - 1.0);
let corrected = ((val * wp_c as f64 / 255.0) as f32).powf(1.0 / gamma as f32);
let out = (corrected.max(0.0).min(1.0) as f64 * u16::MAX as f64).round() as u16;
``` -/
noncomputable def channel_out (rampSize i wpc : ℕ) (gamma : ℝ) : ℕ :=
  toU16 (rustRoundR (clamp01F
    (powfF (mulF (fdivF (i : ℝ) ((rampSize : ℝ) - 1)) ((wpc : ℝ) / 255))
      (1 / gamma)) * 65535))

/-- Point update of a buffer modelled as `ℕ → ℕ`: `buf[k] = v`. -/
def writeAt (buf : ℕ → ℕ) (k v : ℕ) : ℕ → ℕ :=
  fun x => if x = k then v else buf x

/-- The first `n` iterations of the loop in `fill_gamma_table`: iteration
`i` writes the red, green and blue channel values at offsets `i`,
`i + ramp_size` and `i + 2 * ramp_size`. -/
noncomputable def fill_loop (buf : ℕ → ℕ) (rampSize : ℕ) (wp : Rgb) (gamma : ℝ) :
    ℕ → (ℕ → ℕ)
  | 0 => buf
  | n + 1 =>
      let b := fill_loop buf rampSize wp gamma n
      writeAt (writeAt (writeAt b
          n (channel_out rampSize n wp.r gamma))
          (n + rampSize) (channel_out rampSize n wp.g gamma))
          (n + 2 * rampSize) (channel_out rampSize n wp.b gamma)

/-- `fill_gamma_table` from color.rs: run the loop for `i in 0..ramp_size`. -/
noncomputable def fill_gamma_table (buf : ℕ → ℕ) (rampSize : ℕ) (wp : Rgb)
    (gamma : ℝ) : ℕ → ℕ :=
  fill_loop buf rampSize wp gamma rampSize

/-- The buffer indices written by `fill_gamma_table`: for each
`i in 0..ramp_size` the indices `i`, `i + ramp_size`, `i + 2*ramp_size`. -/
def fill_writes (rampSize : ℕ) : List ℕ :=
  (List.range rampSize).flatMap (fun i => [i, i + rampSize, i + 2 * rampSize])

/-- Modelled from the spec: the value the spec prescribes for a one-entry
ramp — "if ramp_size=1, define v=1.0 to avoid division by zero; corrected =
clamp01((v · whitepoint_c/255)^(1/gamma)); write round(corrected·65535)".
The code under src/ has no such special case; this definition exists to be
compared against the code's behaviour. -/
noncomputable def specRampValueOne (wpc : ℕ) (gamma : ℝ) : ℕ :=
  toU16 (rustRoundR (min (max ((1 * ((wpc : ℝ) / 255)) ^ (1 / gamma)) 0) 1 * 65535))

/-! ## Wayland session bookkeeping (wayland.rs)

`OutputState`'s `gamma: Option<ZwlrGammaControlV1>` and
`table: Option<(File, MmapMut)>` are modelled by the presence flag
`hasGamma` and by `tableLen`, the length of the mapped region in `u16`
samples (`bytemuck::cast_slice_mut::<u8, u16>` over `size * 3 * 2` bytes). -/

/-- `OutputState` from wayland.rs. -/
structure OutputRec where
  name : Option String
  hasGamma : Bool
  ramp_size : ℕ
  tableLen : Option ℕ
deriving DecidableEq, Repr

/-- `AppState` from wayland.rs: `outputs: HashMap<u32, OutputState>`
(modelled as an association list with insert-replaces-key semantics),
`gamma_mgr` presence and `gamma_mgr_name`. -/
structure WlAppState where
  outputs : List (ℕ × OutputRec)
  hasMgr : Bool
  mgrName : Option ℕ
deriving DecidableEq, Repr

/-- `HashMap::insert`: replaces any existing entry for the key. -/
def mapInsert (m : List (ℕ × OutputRec)) (k : ℕ) (v : OutputRec) :
    List (ℕ × OutputRec) :=
  (k, v) :: m.filter (fun p => p.1 ≠ k)

/-- `HashMap::remove`. -/
def mapRemove (m : List (ℕ × OutputRec)) (k : ℕ) : List (ℕ × OutputRec) :=
  m.filter (fun p => p.1 ≠ k)

/-- `HashMap::get_mut(k)` followed by a record mutation: updates the entry
for `k` if present, otherwise does nothing. -/
def mapUpdate (m : List (ℕ × OutputRec)) (k : ℕ) (f : OutputRec → OutputRec) :
    List (ℕ × OutputRec) :=
  m.map (fun p => if p.1 = k then (p.1, f p.2) else p)

/-- `AppState::ensure_gamma_for`: if the gamma manager is bound and the
output exists without a gamma object, request one (modelled by setting the
presence flag). -/
def ensure_gamma_for (s : WlAppState) (id : ℕ) : WlAppState :=
  if s.hasMgr then
    { s with outputs := (mapUpdate s.outputs id
        (fun o => if o.hasGamma then o else { o with hasGamma := true })) }
  else s

/-- `AppState::ensure_gamma_all`. -/
def ensure_gamma_all (s : WlAppState) : WlAppState :=
  if s.hasMgr then
    { s with outputs := (s.outputs.map
        (fun p => if p.2.hasGamma then p else (p.1, { p.2 with hasGamma := true }))) }
  else s

/-- The protocol events dispatched to `AppState` in wayland.rs.
`gammaSize` carries `allocOk`, the combined outcome of
`create_anonymous_file` and `MmapMut::map_mut` (on either failure the code
sets `output.table = None`). -/
inductive WlEvent where
  | globalOutput (id : ℕ)
  | globalGammaManager (id : ℕ)
  | globalRemove (id : ℕ)
  | outputName (id : ℕ) (s : String)
  | outputDescription (id : ℕ) (s : String)
  | gammaSize (id : ℕ) (size : ℕ) (allocOk : Bool)
  | gammaFailed (id : ℕ)
deriving DecidableEq, Repr

/-- One protocol event dispatch, combining the three `Dispatch` impls of
wayland.rs:
* `Global` for `wl_output`: insert a fresh output (no name, no gamma,
  `ramp_size: 0`, no table), then `ensure_gamma_for`.
* `Global` for the gamma manager: bind it and `ensure_gamma_all`.
* `GlobalRemove`: clear the manager if its registry name matches, then
  `remove_output`.
* `Name` / `Description`: update the output's name only.
* `GammaSize`: set `ramp_size = size` and map a fresh region of
  `size * 3 * 2` bytes (= `size * 3 * 2 / 2` u16 samples), or clear the
  table on allocation/mmap failure.
* `Failed`: clear the gamma binding, the table and the ramp size. -/
def wlStep (s : WlAppState) (ev : WlEvent) : WlAppState :=
  match ev with
  | WlEvent.globalOutput id =>
      let s := { s with outputs := (mapInsert s.outputs id
          { name := none, hasGamma := false, ramp_size := 0, tableLen := none }) }
      ensure_gamma_for s id
  | WlEvent.globalGammaManager id =>
      ensure_gamma_all { s with hasMgr := true, mgrName := some id }
  | WlEvent.globalRemove id =>
      let s := if s.mgrName = some id then { s with hasMgr := false, mgrName := none }
               else s
      { s with outputs := mapRemove s.outputs id }
  | WlEvent.outputName id n =>
      { s with outputs := mapUpdate s.outputs id (fun o => { o with name := some n }) }
  | WlEvent.outputDescription id d =>
      { s with outputs := mapUpdate s.outputs id (fun o => { o with name := some d }) }
  | WlEvent.gammaSize id size allocOk =>
      { s with outputs := (mapUpdate s.outputs id (fun o =>
          { o with ramp_size := size,
                   tableLen := if allocOk then some (size * 3 * 2 / 2) else none })) }
  | WlEvent.gammaFailed id =>
      { s with outputs := (mapUpdate s.outputs id (fun o =>
          { o with hasGamma := false, tableLen := none, ramp_size := 0 })) }

/-- The initial `AppState::new()`. -/
def wlInit : WlAppState := { outputs := [], hasMgr := false, mgrName := none }

/-- The buffer-shape condition for one output: if a table is present, it
holds exactly `3 * ramp_size` u16 samples. -/
def tableOk (p : ℕ × OutputRec) : Bool :=
  match p.2.tableLen with
  | some len => len == 3 * p.2.ramp_size
  | none => true

/-- The buffer-shape invariant: every present table holds exactly
`ramp_size * 3` u16 samples. -/
def tableInv (s : WlAppState) : Bool :=
  s.outputs.all tableOk

/-- The guard of the loop body of `set_temperature_all` (wayland.rs): an
output is processed iff it has a live gamma binding, a nonzero ramp size and
an allocated table. -/
def processedOutput (o : OutputRec) : Bool :=
  o.hasGamma && (o.ramp_size != 0) && o.tableLen.isSome

/-- Modelled from the spec: "midnight(now) is the local midnight of now's
calendar day".  The code never consults a time zone (all arithmetic is on
epoch seconds), so local time is UTC here and the midnight of `now`'s
calendar day is the floor of `now` to a multiple of 86400. -/
def specLocalMidnight (now : Int) : Int := 86400 * Int.fdiv now 86400

/-- Modelled from the spec: the schedule boundaries relevant at time `now` —
the four `DayStops` timestamps partitioning the day, plus the end of the
current calendar day (the next midnight), at which the schedule is
recomputed. -/
def scheduleBoundaries (now : Int) (stops : DayStops) : List Int :=
  [stops.dawn, stops.sunrise, stops.sunset, stops.night, nextMidnight now]

/-! ## Helper lemmas -/

theorem floor_half_q : ⌊(1 / 2 : ℚ)⌋ = 0 :=
  Int.floor_eq_iff.mpr (by norm_num)

theorem rustRoundQ_intCast (n : Int) : rustRoundQ (n : ℚ) = n := by
  unfold rustRoundQ
  split
  · rw [show ((n : ℚ) + 1 / 2) = (1 / 2 : ℚ) + (n : ℚ) by ring, Int.floor_add_int,
      floor_half_q]
    omega
  · rw [show (-(n : ℚ) + 1 / 2) = (1 / 2 : ℚ) + ((-n : Int) : ℚ) by push_cast; ring,
      Int.floor_add_int, floor_half_q]
    omega

theorem nextMidnight_gt (now : Int) : now < nextMidnight now := by
  have h := Int.tdiv_add_tmod now 86400
  have h2 := Int.tmod_lt_of_pos now (b := 86400) (by norm_num)
  unfold nextMidnight
  generalize Int.tdiv now 86400 = q at h
  generalize Int.tmod now 86400 = r at h h2
  omega

theorem midnight_tmod_eq (now : Int) (h : 0 ≤ now) :
    now - Int.tmod now 86400 = specLocalMidnight now := by
  unfold specLocalMidnight
  rw [Int.tmod_eq_emod h (by norm_num), Int.fdiv_eq_ediv now (by norm_num)]
  omega

/-! ## Claim C3 -/

/-- C3 is refuted at `now = -1`: with Rust's truncated `%`, the code anchors
the manual stops to `midnight = 0` (the *following* midnight), while the
midnight of `-1`'s calendar day is `-86400`; the claimed sunrise would be
`-64800`, the code returns `21600`. -/
theorem C3_counterexample :
    compute_day_stops (fun _ _ _ => (0, 0)) (fun _ => true) (-1) 0 0 1800
        (some (21600, 64800)) =
      Except.ok { dawn := 19800, sunrise := 21600, sunset := 64800, night := 66600 } ∧
    specLocalMidnight (-1) + 21600 = -64800 ∧ (21600 : Int) ≠ -64800 := by
  refine ⟨by decide, by decide, by decide⟩

/-- C3 (amended): for every `now ≥ 0` and manual offsets, `day_stops` returns
dawn = midnight(now)+sunrise_offset−duration, sunrise = midnight(now)+sunrise_offset,
sunset = midnight(now)+sunset_offset, night = midnight(now)+sunset_offset+duration,
where `midnight(now)` is the (UTC) midnight of `now`'s calendar day.  (For
negative `now` the code's truncated `%` anchors to the following midnight
instead.) -/
theorem C3_manual_day_stops (solar : SolarFn) (tsOk : TsOk) (now : Int)
    (lat lon : ℚ) (duration sunrise_s sunset_s : Int) (h : 0 ≤ now) :
    compute_day_stops solar tsOk now lat lon duration (some (sunrise_s, sunset_s)) =
      Except.ok { dawn := specLocalMidnight now + sunrise_s - duration,
                  sunrise := specLocalMidnight now + sunrise_s,
                  sunset := specLocalMidnight now + sunset_s,
                  night := specLocalMidnight now + sunset_s + duration } := by
  have hm := midnight_tmod_eq now h
  simp only [compute_day_stops, Except.ok.injEq, DayStops.mk.injEq]
  refine ⟨by omega, by omega, by omega, by omega⟩

/-- Witness for C3: the spec's own example, `manual = (06:00, 18:00)`,
`duration = 1800`, at `now = 0`: dawn 05:30, sunrise 06:00, sunset 18:00,
night 18:30 as midnight-anchored epoch seconds. -/
theorem C3_manual_day_stops_witness :
    (0 : Int) ≤ 0 ∧
    compute_day_stops (fun _ _ _ => (0, 0)) (fun _ => true) 0 0 0 1800
        (some (21600, 64800)) =
      Except.ok { dawn := 19800, sunrise := 21600, sunset := 64800, night := 66600 } := by
  refine ⟨le_refl 0, ?_⟩
  have h := C3_manual_day_stops (fun _ _ _ => (0, 0)) (fun _ => true) 0 0 0 1800
    21600 64800 (le_refl 0)
  rw [h]
  decide

/-! ## Claim C9 -/

/-- C9 is refuted: with manual offsets supplied, `compute_day_stops` returns
before any validation, so a call with `lat = 999 ∉ [−90, 90]` succeeds
instead of failing with InvalidCoordinates. -/
theorem C9_counterexample :
    compute_day_stops (fun _ _ _ => (0, 0)) (fun _ => true) 0 999 0 1800
        (some (21600, 64800)) =
      Except.ok { dawn := 19800, sunrise := 21600, sunset := 64800, night := 66600 } ∧
    coordsValid 999 0 = false := by
  refine ⟨by decide, by decide⟩

/-- C9 (amended): the coordinate and timestamp validation applies only when
`manual` is `None` (the solar branch).  With `manual = Some _` the call
always succeeds, without validating anything; with `manual = None` it fails
with InvalidCoordinates when lat ∉ [−90, 90] or lon ∉ [−180, 180], fails
with InvalidTimestamp when `now` cannot be mapped to a calendar date, and
succeeds otherwise. -/
theorem C9_validation (solar : SolarFn) (tsOk : TsOk) (now : Int) (lat lon : ℚ)
    (duration : Int) (manual : Option (Int × Int)) :
    (∀ a b, manual = some (a, b) →
        ∃ st, compute_day_stops solar tsOk now lat lon duration manual =
          Except.ok st) ∧
    (manual = none → coordsValid lat lon = false →
        compute_day_stops solar tsOk now lat lon duration manual =
          Except.error StopsError.invalidCoordinates) ∧
    (manual = none → coordsValid lat lon = true → tsOk now = false →
        compute_day_stops solar tsOk now lat lon duration manual =
          Except.error StopsError.invalidTimestamp) ∧
    (manual = none → coordsValid lat lon = true → tsOk now = true →
        ∃ st, compute_day_stops solar tsOk now lat lon duration manual =
          Except.ok st) := by
  refine ⟨?_, ?_, ?_, ?_⟩
  · rintro a b rfl
    exact ⟨_, rfl⟩
  · rintro rfl hc
    simp [compute_day_stops, hc]
  · rintro rfl hc ht
    simp [compute_day_stops, hc, ht]
  · rintro rfl hc ht
    refine ⟨{ dawn := (solar lat lon (epochDay now)).1 - duration,
              sunrise := (solar lat lon (epochDay now)).1,
              sunset := (solar lat lon (epochDay now)).2,
              night := (solar lat lon (epochDay now)).2 + duration }, ?_⟩
    simp [compute_day_stops, hc, ht]

/-- Witness for C9: at `lat = 999`, `manual = None`, the solar branch does
fail with InvalidCoordinates. -/
theorem C9_validation_witness :
    (none : Option (Int × Int)) = none ∧ coordsValid 999 0 = false ∧
    compute_day_stops (fun _ _ _ => (0, 0)) (fun _ => true) 0 999 0 1800 none =
      Except.error StopsError.invalidCoordinates := by
  refine ⟨rfl, by decide, ?_⟩
  exact (C9_validation (fun _ _ _ => (0, 0)) (fun _ => true) 0 999 0 1800
    none).2.1 rfl (by decide)

/-! ## Claim C7 -/

/-- C7 is refuted: nothing validates the manual offsets or the duration, so
swapped offsets (`sunrise = 18:00 > sunset = 06:00`) with a negative
duration produce a `DayStops` violating dawn ≤ sunrise ≤ sunset ≤ night. -/
theorem C7_counterexample :
    compute_day_stops (fun _ _ _ => (0, 0)) (fun _ => true) 0 0 0 (-1)
        (some (64800, 21600)) =
      Except.ok { dawn := 64801, sunrise := 64800, sunset := 21600, night := 21599 } ∧
    ¬ ((64801 : Int) ≤ 64800 ∧ (64800 : Int) ≤ 21600 ∧ (21600 : Int) ≤ 21599) := by
  refine ⟨by decide, by decide⟩

/-- C7 (amended): every `DayStops` successfully returned by `day_stops`
satisfies dawn ≤ sunrise ≤ sunset ≤ night, provided the transition duration
is nonnegative and the sunrise bound does not exceed the sunset bound
(manual offsets respectively the solar library's event times). -/
theorem C7_stops_ordered (solar : SolarFn) (tsOk : TsOk) (now : Int)
    (lat lon : ℚ) (duration : Int) (manual : Option (Int × Int)) (st : DayStops)
    (hdur : 0 ≤ duration)
    (hman : ∀ a b, manual = some (a, b) → a ≤ b)
    (hsolar : ∀ la lo d, (solar la lo d).1 ≤ (solar la lo d).2)
    (hok : compute_day_stops solar tsOk now lat lon duration manual =
      Except.ok st) :
    st.dawn ≤ st.sunrise ∧ st.sunrise ≤ st.sunset ∧ st.sunset ≤ st.night := by
  rcases manual with _ | ⟨a, b⟩
  · simp only [compute_day_stops] at hok
    by_cases hc : coordsValid lat lon = true
    · by_cases ht : tsOk now = true
      · rw [if_pos hc, if_pos ht] at hok
        have hs := hsolar lat lon (epochDay now)
        injection hok with h
        subst h
        refine ⟨by simp; omega, by simp; omega, by simp; omega⟩
      · rw [if_pos hc, if_neg ht] at hok
        exact absurd hok (by simp)
    · rw [if_neg hc] at hok
      exact absurd hok (by simp)
  · have hab := hman a b rfl
    simp only [compute_day_stops] at hok
    injection hok with h
    subst h
    refine ⟨by simp; omega, by simp; omega, by simp; omega⟩

/-- Witness for C7: a solar-branch run with ordered event times and positive
duration yields ordered stops. -/
theorem C7_stops_ordered_witness :
    (0 : Int) ≤ 1800 ∧
    ((-1700 : Int) ≤ 100 ∧ (100 : Int) ≤ 200 ∧ (200 : Int) ≤ 2000) := by
  refine ⟨by decide, ?_⟩
  have h := C7_stops_ordered (fun _ _ _ => (100, 200)) (fun _ => true) 0 0 0 1800
    none { dawn := -1700, sunrise := 100, sunset := 200, night := 2000 }
    (by decide) (fun a b hab => nomatch hab)
    (fun _ _ _ => by show (100 : Int) ≤ 200; decide) (by decide)
  exact h

/-! ## Claim C1 -/

theorem epochDay_add_day (now : Int) : epochDay (now + 86400) = epochDay now + 1 := by
  unfold epochDay
  rw [Int.fdiv_eq_ediv _ (by norm_num), Int.fdiv_eq_ediv _ (by norm_num)]
  omega

/-- C1: if `now < stops.sunrise`, `next_sunrise` returns today's sunrise;
otherwise it returns the sunrise of `day_stops` evaluated at `now + 86400`,
a timestamp lying exactly one calendar day after `now` (`epochDay` advances
by exactly 1).  In the code's UTC epoch arithmetic, `chrono`'s
`Duration::days(1)` advance is exactly 86400 seconds, and one calendar day
is exactly 86400 seconds, so the two coincide; no daylight-saving shift
exists in this arithmetic. -/
theorem C1_next_sunrise (solar : SolarFn) (tsOk : TsOk) (now : Int)
    (current : DayStops) (lat lon : ℚ) (duration : Int)
    (manual : Option (Int × Int)) (hts : tsOk now = true) :
    (now < current.sunrise →
      next_sunrise_timestamp solar tsOk now current lat lon duration manual =
        Except.ok current.sunrise) ∧
    (current.sunrise ≤ now →
      next_sunrise_timestamp solar tsOk now current lat lon duration manual =
        (compute_day_stops solar tsOk (now + 86400) lat lon duration manual).map
          (fun st => st.sunrise) ∧
      epochDay (now + 86400) = epochDay now + 1) := by
  constructor
  · intro hlt
    simp [next_sunrise_timestamp, hlt]
  · intro hge
    refine ⟨?_, epochDay_add_day now⟩
    simp [next_sunrise_timestamp, not_lt.mpr hge, hts]

/-- Witness for C1, exercising the `now ≥ sunrise` branch at a concrete
input: the returned value is tomorrow's `day_stops` sunrise. -/
theorem C1_next_sunrise_witness :
    (fun (_ : Int) => true) 50000 = true ∧
    next_sunrise_timestamp (fun _ _ _ => (100, 200)) (fun _ => true) 50000
        { dawn := 0, sunrise := 21600, sunset := 64800, night := 66600 }
        0 0 1800 none =
      Except.ok 100 := by
  refine ⟨rfl, ?_⟩
  have h := (C1_next_sunrise (fun _ _ _ => (100, 200)) (fun _ => true) 50000
    { dawn := 0, sunrise := 21600, sunset := 64800, night := 66600 }
    0 0 1800 none rfl).2 (by decide)
  rw [h.1]
  decide

/-! ## Claim C2 -/

theorem interpolate_formula (now start stop a b : Int) (hs : start ≤ now)
    (hn : now < stop) :
    interpolate now start stop a b =
      rustRoundQ ((a : ℚ) + ((b - a : Int) : ℚ) *
        (((now - start : Int) : ℚ) / ((stop - start : Int) : ℚ))) := by
  unfold interpolate
  rw [if_neg (by omega)]
  have hden : (0 : ℚ) < ((stop - start : Int) : ℚ) := by
    exact_mod_cast Int.sub_pos.mpr (lt_of_le_of_lt hs hn)
  have hnum : (0 : ℚ) ≤ ((now - start : Int) : ℚ) := by
    exact_mod_cast Int.sub_nonneg.mpr hs
  have hq0 : (0 : ℚ) ≤ ((now - start : Int) : ℚ) / ((stop - start : Int) : ℚ) :=
    div_nonneg hnum hden.le
  have hq1 : ((now - start : Int) : ℚ) / ((stop - start : Int) : ℚ) ≤ 1 := by
    rw [div_le_one hden]
    exact_mod_cast by omega
  rw [min_eq_right hq1, max_eq_right hq0]

theorem interpolate_at_start (start stop a b : Int) (h : start < stop) :
    interpolate start start stop a b = a := by
  unfold interpolate
  rw [if_neg (by omega)]
  have h0 : ((start - start : Int) : ℚ) / ((stop - start : Int) : ℚ) = 0 := by
    simp
  rw [h0]
  dsimp only
  rw [show max 0 (min 1 (0 : ℚ)) = 0 by norm_num]
  rw [show (a : ℚ) + ((b - a : Int) : ℚ) * 0 = ((a : Int) : ℚ) by ring]
  exact rustRoundQ_intCast a

/-- C2 is refuted at a degenerate boundary: with dawn = sunrise (duration 0),
the instant `now = dawn` falls in the day region and yields `high`, not the
claimed `low`. -/
theorem C2_counterexample :
    temperature_for 0 { dawn := 0, sunrise := 0, sunset := 10, night := 10 }
        4000 6500 = 6500 ∧
    (6500 : Int) ≠ 4000 := by
  refine ⟨by decide, by decide⟩

/-- C2 (amended): for dawn ≤ sunrise ≤ sunset ≤ night, `temperature` is low
outside [dawn, night), high on [sunrise, sunset), the rounded linear
interpolation low→high on [dawn, sunrise) and high→low on [sunset, night)
(the clamp is a no-op inside the windows); the boundary values hold for
non-degenerate boundaries: at dawn → low provided dawn < sunrise, at
sunrise → high provided sunrise < night, at sunset → high provided
sunset < night, and at night → low unconditionally.  (When dawn = sunrise
the instant dawn lies in the day region and yields high; when sunset =
night the instant sunset lies in the night region and yields low.) -/
theorem C2_temperature (now : Int) (stops : DayStops) (low high : Int)
    (h1 : stops.dawn ≤ stops.sunrise) (h2 : stops.sunrise ≤ stops.sunset)
    (h3 : stops.sunset ≤ stops.night) :
    ((now < stops.dawn ∨ stops.night ≤ now) →
      temperature_for now stops low high = low) ∧
    (stops.sunrise ≤ now → now < stops.sunset →
      temperature_for now stops low high = high) ∧
    (stops.dawn ≤ now → now < stops.sunrise →
      temperature_for now stops low high =
        rustRoundQ ((low : ℚ) + ((high - low : Int) : ℚ) *
          (((now - stops.dawn : Int) : ℚ) /
            ((stops.sunrise - stops.dawn : Int) : ℚ)))) ∧
    (stops.sunset ≤ now → now < stops.night →
      temperature_for now stops low high =
        rustRoundQ ((high : ℚ) + ((low - high : Int) : ℚ) *
          (((now - stops.sunset : Int) : ℚ) /
            ((stops.night - stops.sunset : Int) : ℚ)))) ∧
    (stops.dawn < stops.sunrise →
      temperature_for stops.dawn stops low high = low) ∧
    (stops.sunrise < stops.night →
      temperature_for stops.sunrise stops low high = high) ∧
    (stops.sunset < stops.night →
      temperature_for stops.sunset stops low high = high) ∧
    (temperature_for stops.night stops low high = low) := by
  refine ⟨?_, ?_, ?_, ?_, ?_, ?_, ?_, ?_⟩
  · rintro (h | h)
    · unfold temperature_for
      rw [if_pos h]
    · unfold temperature_for
      rw [if_neg (by omega), if_neg (by omega), if_neg (by omega), if_neg (by omega)]
  · intro ha hb
    unfold temperature_for
    rw [if_neg (by omega), if_neg (by omega), if_pos hb]
  · intro ha hb
    unfold temperature_for
    rw [if_neg (by omega), if_pos hb]
    exact interpolate_formula now stops.dawn stops.sunrise low high ha hb
  · intro ha hb
    unfold temperature_for
    rw [if_neg (by omega), if_neg (by omega), if_neg (by omega), if_pos hb]
    exact interpolate_formula now stops.sunset stops.night high low ha hb
  · intro h
    unfold temperature_for
    rw [if_neg (by omega), if_pos h]
    exact interpolate_at_start stops.dawn stops.sunrise low high h
  · intro h
    by_cases hds : stops.sunrise < stops.sunset
    · unfold temperature_for
      rw [if_neg (by omega), if_neg (by omega), if_pos hds]
    · have heq : stops.sunrise = stops.sunset := by omega
      unfold temperature_for
      rw [if_neg (by omega), if_neg (by omega), if_neg (by omega), if_pos (by omega)]
      rw [heq]
      exact interpolate_at_start stops.sunset stops.night high low (by omega)
  · intro h
    unfold temperature_for
    rw [if_neg (by omega), if_neg (by omega), if_neg (by omega), if_pos h]
    exact interpolate_at_start stops.sunset stops.night high low h
  · unfold temperature_for
    rw [if_neg (by omega), if_neg (by omega), if_neg (by omega), if_neg (by omega)]

/-- Witness for C2: a concrete day with nondegenerate windows; midway
through the dawn window the temperature is the rounded midpoint. -/
theorem C2_temperature_witness :
    (0 : Int) ≤ 0 ∧ (0 : Int) < 100 ∧
    temperature_for 50 { dawn := 0, sunrise := 100, sunset := 200, night := 300 }
        4000 6500 =
      rustRoundQ ((4000 : ℚ) + ((6500 - 4000 : Int) : ℚ) *
        (((50 - 0 : Int) : ℚ) / ((100 - 0 : Int) : ℚ))) := by
  refine ⟨by decide, by decide, ?_⟩
  have h := (C2_temperature 50
    { dawn := 0, sunrise := 100, sunset := 200, night := 300 } 4000 6500
    (by decide) (by decide) (by decide)).2.2.1 (by decide) (by decide)
  exact h

/-! ## Claim C6 -/

/-- C6: override lifecycle over ticks.  While an override is pinned and
unexpired, the tick applies Day→(Day, high), Night→(Night, low),
Sunset→(Sunset, (low+high)/2, independent of `now`); a newer override
command supersedes the previous override unconditionally, with
`expires_at` recomputed as `next_sunrise` of the handling tick; the
override is destroyed when `now ≥ expires_at` (the same tick already
applies the natural phase and temperature, with no further command
required) or when an explicit auto command arrives. -/
theorem C6_override_lifecycle (now : Int) (stops : DayStops) (low high : Int)
    (ov : TrayOverride) (solar : SolarFn) (tsOk : TsOk) (lat lon : ℚ)
    (duration : Int) (manual : Option (Int × Int)) :
    (now < ov.expires_at →
      (ov.mode = ModeArg.day →
        tick_apply now stops low high (some ov) = (DayPhase.day, high, some ov)) ∧
      (ov.mode = ModeArg.night →
        tick_apply now stops low high (some ov) = (DayPhase.night, low, some ov)) ∧
      (ov.mode = ModeArg.sunset →
        tick_apply now stops low high (some ov) =
          (DayPhase.sunsetP, Int.tdiv (low + high) 2, some ov))) ∧
    (∀ m, m ≠ ModeArg.auto → ∀ e,
      next_sunrise_timestamp solar tsOk now stops lat lon duration manual =
        Except.ok e →
      handle_mode_command solar tsOk now stops lat lon duration manual m
          (some ov) =
        Except.ok (some { mode := m, expires_at := e })) ∧
    (ov.expires_at ≤ now →
      tick_apply now stops low high (some ov) =
        (phase_for now stops, temperature_for now stops low high, none)) ∧
    (handle_mode_command solar tsOk now stops lat lon duration manual
        ModeArg.auto (some ov) =
      Except.ok none) := by
  refine ⟨?_, ?_, ?_, ?_⟩
  · intro hlt
    have hd : decide (now ≥ ov.expires_at) = false := by
      simp
      omega
    refine ⟨?_, ?_, ?_⟩ <;> intro hm <;>
      simp [tick_apply, hd, hm]
  · intro m hm e he
    cases m with
    | auto => exact absurd rfl hm
    | day => simp [handle_mode_command, he, Except.map]
    | night => simp [handle_mode_command, he, Except.map]
    | sunset => simp [handle_mode_command, he, Except.map]
  · intro hge
    have hd : decide (now ≥ ov.expires_at) = true := by
      simp
      omega
    simp [tick_apply, hd]
  · rfl

/-- Witness for C6: a pinned Night override with a concrete unexpired
deadline forces (Night, low); the Sunset mode pins the truncated midpoint. -/
theorem C6_override_lifecycle_witness :
    (100 : Int) < 500 ∧
    tick_apply 100 { dawn := 0, sunrise := 10, sunset := 200, night := 300 }
        4000 6500 (some { mode := ModeArg.night, expires_at := 500 }) =
      (DayPhase.night, 4000, some { mode := ModeArg.night, expires_at := 500 }) := by
  refine ⟨by decide, ?_⟩
  exact ((C6_override_lifecycle 100
    { dawn := 0, sunrise := 10, sunset := 200, night := 300 } 4000 6500
    { mode := ModeArg.night, expires_at := 500 } (fun _ _ _ => (0, 0))
    (fun _ => true) 0 0 1800 none).1 (by decide)).2.1 rfl

/-! ## Claim C8 -/

/-- C8: outside the sunrise/sunset transition windows, the computed wake
deadline is the earliest upcoming schedule boundary (among dawn, sunrise,
sunset, night and the end of the current calendar day, at which the
schedule is recomputed); inside a transition window it is the fixed 10 s
repoll from `now`; and the wait is always clamped to at least 1 second
(1000 ms). -/
theorem C8_wake_deadline (now : Int) (stops : DayStops)
    (h1 : stops.dawn ≤ stops.sunrise) (h2 : stops.sunrise ≤ stops.sunset)
    (h3 : stops.sunset ≤ stops.night) (h4 : stops.night ≤ nextMidnight now) :
    (¬ ((stops.dawn ≤ now ∧ now < stops.sunrise) ∨
        (stops.sunset ≤ now ∧ now < stops.night)) →
      next_deadline now stops ∈ scheduleBoundaries now stops ∧
      now < next_deadline now stops ∧
      ∀ b ∈ scheduleBoundaries now stops, now < b →
        next_deadline now stops ≤ b) ∧
    ((stops.dawn ≤ now ∧ now < stops.sunrise) ∨
        (stops.sunset ≤ now ∧ now < stops.night) →
      next_deadline now stops = now + 10) ∧
    (1000 : Int) ≤ wait_ms now stops := by
  have hnm := nextMidnight_gt now
  refine ⟨?_, ?_, ?_⟩
  · intro htr
    by_cases hc1 : now < stops.dawn
    · have hdl : next_deadline now stops = stops.dawn := by
        unfold next_deadline
        rw [if_pos hc1]
      rw [hdl]
      refine ⟨by simp [scheduleBoundaries], hc1, ?_⟩
      intro b hb hub
      simp only [scheduleBoundaries, List.mem_cons, List.not_mem_nil, or_false] at hb
      rcases hb with rfl | rfl | rfl | rfl | rfl <;> omega
    · by_cases hc2 : now < stops.sunset
      · have hsr : stops.sunrise ≤ now := by omega
        have hdl : next_deadline now stops = stops.sunset := by
          unfold next_deadline
          rw [if_neg (by omega), if_neg (by omega), if_pos hc2]
        rw [hdl]
        refine ⟨by simp [scheduleBoundaries], hc2, ?_⟩
        intro b hb hub
        simp only [scheduleBoundaries, List.mem_cons, List.not_mem_nil, or_false] at hb
        rcases hb with rfl | rfl | rfl | rfl | rfl <;> omega
      · have hni : stops.night ≤ now := by omega
        have hdl : next_deadline now stops = nextMidnight now := by
          unfold next_deadline
          rw [if_neg (by omega), if_neg (by omega), if_neg (by omega),
            if_neg (by omega)]
          rfl
        rw [hdl]
        refine ⟨by simp [scheduleBoundaries], hnm, ?_⟩
        intro b hb hub
        simp only [scheduleBoundaries, List.mem_cons, List.not_mem_nil, or_false] at hb
        rcases hb with rfl | rfl | rfl | rfl | rfl <;> omega
  · rintro (⟨ha, hb⟩ | ⟨ha, hb⟩)
    · unfold next_deadline
      rw [if_neg (by omega), if_pos hb]
    · unfold next_deadline
      rw [if_neg (by omega), if_neg (by omega), if_neg (by omega), if_pos hb]
  · unfold wait_ms
    have h := le_max_right (next_deadline now stops - now) (1 : Int)
    generalize max (next_deadline now stops - now) (1 : Int) = m at h ⊢
    omega

/-- Witness for C8: inside the dawn→sunrise transition the deadline is the
10-second repoll. -/
theorem C8_wake_deadline_witness :
    ((100 : Int) ≤ 150 ∧ (150 : Int) < 200) ∧
    next_deadline 150 { dawn := 100, sunrise := 200, sunset := 300, night := 400 } =
      150 + 10 := by
  refine ⟨⟨by decide, by decide⟩, ?_⟩
  exact (C8_wake_deadline 150
    { dawn := 100, sunrise := 200, sunset := 300, night := 400 }
    (by decide) (by decide) (by decide) (by decide)).2.1
    (Or.inl ⟨by decide, by decide⟩)

/-! ## Claim C10 -/

theorem fill_writes_lt (rampSize k : ℕ) (hk : k ∈ fill_writes rampSize) :
    k < 3 * rampSize := by
  simp only [fill_writes, List.mem_flatMap, List.mem_range, List.mem_cons,
    List.not_mem_nil, or_false] at hk
  obtain ⟨i, hi, hmem⟩ := hk
  rcases hmem with rfl | rfl | rfl <;> omega

theorem all_mapUpdate (m : List (ℕ × OutputRec)) (k : ℕ)
    (f : OutputRec → OutputRec) (P : ℕ × OutputRec → Bool)
    (h : ∀ p, P p = true → P (p.1, f p.2) = true)
    (hall : m.all P = true) : (mapUpdate m k f).all P = true := by
  simp only [mapUpdate, List.all_eq_true, List.mem_map] at *
  rintro p ⟨q, hq, rfl⟩
  split
  · exact h q (hall q hq)
  · exact hall q hq

theorem all_filter_sub (m : List (ℕ × OutputRec)) (g : ℕ × OutputRec → Bool)
    (P : ℕ × OutputRec → Bool) (hall : m.all P = true) :
    (m.filter g).all P = true := by
  simp only [List.all_eq_true, List.mem_filter] at *
  rintro p ⟨hp, _⟩
  exact hall p hp

theorem tableInv_wlStep (s : WlAppState) (ev : WlEvent)
    (h : tableInv s = true) : tableInv (wlStep s ev) = true := by
  cases ev with
  | globalOutput id =>
      simp only [wlStep, ensure_gamma_for, tableInv, mapInsert] at h ⊢
      split
      · dsimp only
        apply all_mapUpdate
        · intro p hp
          cases hgp : p.2.hasGamma <;> simp [hgp, tableOk] at hp ⊢ <;>
            exact hp
        · simp only [List.all_cons, Bool.and_eq_true]
          exact ⟨rfl, all_filter_sub _ _ _ h⟩
      · dsimp only
        simp only [List.all_cons, Bool.and_eq_true]
        exact ⟨rfl, all_filter_sub _ _ _ h⟩
  | globalGammaManager id =>
      simp only [wlStep, ensure_gamma_all, tableInv] at h ⊢
      split
      · dsimp only
        simp only [List.all_eq_true, List.mem_map] at h ⊢
        rintro p ⟨q, hq, rfl⟩
        split
        · exact h q hq
        · have := h q hq
          simpa [tableOk] using this
      · exact h
  | globalRemove id =>
      simp only [wlStep, tableInv, mapRemove] at h ⊢
      split
      all_goals exact all_filter_sub _ _ _ h
  | outputName id n =>
      simp only [wlStep, tableInv] at h ⊢
      apply all_mapUpdate _ _ _ _ _ h
      intro p hp
      simpa [tableOk] using hp
  | outputDescription id d =>
      simp only [wlStep, tableInv] at h ⊢
      apply all_mapUpdate _ _ _ _ _ h
      intro p hp
      simpa [tableOk] using hp
  | gammaSize id size allocOk =>
      simp only [wlStep, tableInv] at h ⊢
      apply all_mapUpdate _ _ _ _ _ h
      intro p _
      cases allocOk
      · simp [tableOk]
      · simp [tableOk]
        omega
  | gammaFailed id =>
      simp only [wlStep, tableInv] at h ⊢
      apply all_mapUpdate _ _ _ _ _ h
      intro p _
      simp [tableOk]

theorem tableInv_foldl (evs : List WlEvent) (s : WlAppState)
    (h : tableInv s = true) : tableInv (evs.foldl wlStep s) = true := by
  induction evs generalizing s with
  | nil => exact h
  | cons ev rest ih => exact ih (wlStep s ev) (tableInv_wlStep s ev h)

/-- C10: from the initial state, every protocol event sequence preserves the
invariant that a present table buffer holds exactly `ramp_size * 3` 16-bit
samples; consequently, for every output that `set_temperature_all`
processes (live gamma binding, nonzero ramp size, table present), every
index `fill_gamma_table` writes — `i`, `i + ramp_size`, `i + 2*ramp_size`
for `i < ramp_size` — lies within the buffer, so no out-of-bounds write is
reachable. -/
theorem C10_gamma_buffer_safety :
    (∀ evs : List WlEvent, tableInv (evs.foldl wlStep wlInit) = true) ∧
    (∀ s : WlAppState, tableInv s = true →
      ∀ id o, (id, o) ∈ s.outputs → processedOutput o = true →
      ∀ len, o.tableLen = some len →
      ∀ k ∈ fill_writes o.ramp_size, k < len) := by
  constructor
  · intro evs
    exact tableInv_foldl evs wlInit rfl
  · intro s hinv id o hmem _ len hlen k hk
    have hall := hinv
    simp only [tableInv, List.all_eq_true] at hall
    have hok := hall (id, o) hmem
    rw [tableOk, hlen] at hok
    have hlen3 : len = 3 * o.ramp_size := by
      simpa using hok
    rw [hlen3]
    exact fill_writes_lt o.ramp_size k hk

/-- Witness for C10: a concrete session — an output appears, the manager is
bound, the compositor reports ramp size 2 — yields a 6-sample table, and
the last write index 5 is in bounds. -/
theorem C10_gamma_buffer_safety_witness :
    tableInv ([WlEvent.globalOutput 1, WlEvent.globalGammaManager 2,
        WlEvent.gammaSize 1 2 true].foldl wlStep wlInit) = true ∧
    (5 : ℕ) < 6 := by
  refine ⟨C10_gamma_buffer_safety.1 _, ?_⟩
  exact C10_gamma_buffer_safety.2
    ([WlEvent.globalOutput 1, WlEvent.globalGammaManager 2,
        WlEvent.gammaSize 1 2 true].foldl wlStep wlInit)
    (C10_gamma_buffer_safety.1 _) 1
    { name := none, hasGamma := true, ramp_size := 2, tableLen := some 6 }
    (by decide) (by decide) 6 (by decide) 5 (by decide)

/-! ## Claim C4 -/

theorem floor_half_r : ⌊(1 / 2 : ℝ)⌋ = 0 :=
  Int.floor_eq_iff.mpr (by norm_num)

theorem rustRoundR_zero : rustRoundR 0 = 0 := by
  unfold rustRoundR
  rw [if_pos le_rfl, zero_add, floor_half_r]

theorem rustRoundR_large : rustRoundR 65535 = 65535 := by
  unfold rustRoundR
  rw [if_pos (by norm_num)]
  rw [show ((65535 : ℝ) + 1 / 2) = (1 / 2 : ℝ) + ((65535 : Int) : ℝ) by norm_num,
    Int.floor_add_int, floor_half_r]
  norm_num

/-- C4 is refuted by the code: `fill_gamma_table` has no `ramp_size = 1`
special case.  The single iteration computes `val = 0.0 / 0.0 = NaN`, the
NaN propagates through `powf`, and Rust's NaN-ignoring
`max(0.0).min(1.0)` turns it into `0.0`, so the code writes 0 into every
plane — while the spec prescribes `v = 1.0` and
`round(clamp01((whitepoint_c/255)^(1/gamma))·65535)`, which is 65535 for a
255 channel at gamma 1. -/
theorem C4_ramp_size_one :
    fill_gamma_table (fun _ => 7) 1 { r := 255, g := 255, b := 255 } 1 0 = 0 ∧
    specRampValueOne 255 1 = 65535 ∧ (0 : ℕ) ≠ 65535 := by
  refine ⟨?_, ?_, by decide⟩
  · have hval : fill_gamma_table (fun _ => 7) 1 { r := 255, g := 255, b := 255 } 1 0 =
        channel_out 1 0 255 1 := by
      unfold fill_gamma_table fill_loop
      simp [writeAt]
    rw [hval]
    unfold channel_out
    have hd : fdivF ((0 : ℕ) : ℝ) (((1 : ℕ) : ℝ) - 1) = Fl.nan := by
      unfold fdivF
      rw [if_pos (by norm_num), if_pos (by norm_num)]
    rw [hd]
    have hm : mulF Fl.nan (((255 : ℕ) : ℝ) / 255) = Fl.nan := rfl
    rw [hm]
    have hp : powfF Fl.nan (1 / (1 : ℝ)) = Fl.nan := by
      simp only [powfF]
      rw [if_neg (by norm_num)]
    rw [hp]
    show toU16 (rustRoundR ((0 : ℝ) * 65535)) = 0
    rw [zero_mul, rustRoundR_zero]
    decide
  · unfold specRampValueOne
    have h1 : (1 : ℝ) * (((255 : ℕ) : ℝ) / 255) = 1 := by norm_num
    rw [h1, Real.one_rpow]
    rw [show max (1 : ℝ) 0 = 1 by norm_num, show min (1 : ℝ) 1 = 1 by norm_num,
      one_mul, rustRoundR_large]
    decide

/-! ## Claim C5 -/

theorem writeAt_eq (buf : ℕ → ℕ) (k v : ℕ) : writeAt buf k v k = v := by
  unfold writeAt
  simp

theorem writeAt_ne (buf : ℕ → ℕ) (k v x : ℕ) (h : x ≠ k) :
    writeAt buf k v x = buf x := by
  unfold writeAt
  simp [h]

theorem channel_out_eval (rs i wpc : ℕ) (gamma : ℝ) (hrs : 2 ≤ rs) :
    channel_out rs i wpc gamma =
      toU16 (rustRoundR (min (max ((((i : ℝ) / ((rs : ℝ) - 1)) *
        ((wpc : ℝ) / 255)) ^ (1 / gamma)) 0) 1 * 65535)) := by
  have hden : ((rs : ℝ) - 1) ≠ 0 := by
    have h2 : (2 : ℝ) ≤ (rs : ℝ) := by exact_mod_cast hrs
    intro hc
    nlinarith
  unfold channel_out fdivF
  rw [if_neg hden]
  rfl

theorem rustRoundR_mono_nonneg (x y : ℝ) (hx : 0 ≤ x) (hxy : x ≤ y) :
    rustRoundR x ≤ rustRoundR y := by
  unfold rustRoundR
  rw [if_pos hx, if_pos (le_trans hx hxy)]
  exact Int.floor_mono (by linarith)

theorem toU16_mono (a b : Int) (h : a ≤ b) : toU16 a ≤ toU16 b := by
  unfold toU16
  exact Int.toNat_le_toNat (min_le_min (max_le_max h le_rfl) le_rfl)

theorem channel_out_mono (rs i j wpc : ℕ) (gamma : ℝ) (hrs : 2 ≤ rs)
    (hg : 0 < gamma) (hij : i ≤ j) :
    channel_out rs i wpc gamma ≤ channel_out rs j wpc gamma := by
  rw [channel_out_eval rs i wpc gamma hrs, channel_out_eval rs j wpc gamma hrs]
  have hden : (0 : ℝ) < (rs : ℝ) - 1 := by
    have h2 : (2 : ℝ) ≤ (rs : ℝ) := by exact_mod_cast hrs
    linarith
  have hxi0 : (0 : ℝ) ≤ ((i : ℝ) / ((rs : ℝ) - 1)) * ((wpc : ℝ) / 255) := by
    positivity
  have hxij : ((i : ℝ) / ((rs : ℝ) - 1)) * ((wpc : ℝ) / 255) ≤
      ((j : ℝ) / ((rs : ℝ) - 1)) * ((wpc : ℝ) / 255) := by
    apply mul_le_mul_of_nonneg_right
    · exact (div_le_div_iff_of_pos_right hden).mpr (by exact_mod_cast hij)
    · positivity
  have hpow := Real.rpow_le_rpow hxi0 hxij (by positivity : (0 : ℝ) ≤ 1 / gamma)
  apply toU16_mono
  apply rustRoundR_mono_nonneg
  · have : (0 : ℝ) ≤ min (max ((((i : ℝ) / ((rs : ℝ) - 1)) *
        ((wpc : ℝ) / 255)) ^ (1 / gamma)) 0) 1 :=
      le_min (le_max_right _ 0) zero_le_one
    positivity
  · exact mul_le_mul_of_nonneg_right
      (min_le_min (max_le_max hpow le_rfl) le_rfl) (by norm_num)

theorem fill_loop_eval (buf : ℕ → ℕ) (rs : ℕ) (wp : Rgb) (gamma : ℝ) :
    ∀ n, n ≤ rs → ∀ i, i < n →
      fill_loop buf rs wp gamma n i = channel_out rs i wp.r gamma ∧
      fill_loop buf rs wp gamma n (i + rs) = channel_out rs i wp.g gamma ∧
      fill_loop buf rs wp gamma n (i + 2 * rs) = channel_out rs i wp.b gamma := by
  intro n
  induction n with
  | zero => intro _ i hi; omega
  | succ m ih =>
      intro hn i hi
      have hrs : 0 < rs := by omega
      by_cases him : i = m
      · subst him
        refine ⟨?_, ?_, ?_⟩
        · simp only [fill_loop]
          rw [writeAt_ne _ _ _ _ (by omega), writeAt_ne _ _ _ _ (by omega),
            writeAt_eq]
        · simp only [fill_loop]
          rw [writeAt_ne _ _ _ _ (by omega), writeAt_eq]
        · simp only [fill_loop]
          rw [writeAt_eq]
      · have him' : i < m := by omega
        obtain ⟨h1, h2, h3⟩ := ih (by omega) i him'
        refine ⟨?_, ?_, ?_⟩
        · simp only [fill_loop]
          rw [writeAt_ne _ _ _ _ (by omega), writeAt_ne _ _ _ _ (by omega),
            writeAt_ne _ _ _ _ (by omega)]
          exact h1
        · simp only [fill_loop]
          rw [writeAt_ne _ _ _ _ (by omega), writeAt_ne _ _ _ _ (by omega),
            writeAt_ne _ _ _ _ (by omega)]
          exact h2
        · simp only [fill_loop]
          rw [writeAt_ne _ _ _ _ (by omega), writeAt_ne _ _ _ _ (by omega),
            writeAt_ne _ _ _ _ (by omega)]
          exact h3

/-- C5: for `ramp_size ≥ 2` and fixed whitepoint and (positive) gamma, the
16-bit values `fill_ramp` writes into each of the three channel planes are
non-decreasing in the index. -/
theorem C5_fill_monotone (buf : ℕ → ℕ) (rs : ℕ) (wp : Rgb) (gamma : ℝ)
    (hrs : 2 ≤ rs) (hg : 0 < gamma) (i j : ℕ) (hij : i ≤ j) (hj : j < rs) :
    fill_gamma_table buf rs wp gamma i ≤ fill_gamma_table buf rs wp gamma j ∧
    fill_gamma_table buf rs wp gamma (i + rs) ≤
      fill_gamma_table buf rs wp gamma (j + rs) ∧
    fill_gamma_table buf rs wp gamma (i + 2 * rs) ≤
      fill_gamma_table buf rs wp gamma (j + 2 * rs) := by
  have hiv := fill_loop_eval buf rs wp gamma rs le_rfl i (by omega)
  have hjv := fill_loop_eval buf rs wp gamma rs le_rfl j hj
  unfold fill_gamma_table
  refine ⟨?_, ?_, ?_⟩
  · rw [hiv.1, hjv.1]
    exact channel_out_mono rs i j wp.r gamma hrs hg hij
  · rw [hiv.2.1, hjv.2.1]
    exact channel_out_mono rs i j wp.g gamma hrs hg hij
  · rw [hiv.2.2, hjv.2.2]
    exact channel_out_mono rs i j wp.b gamma hrs hg hij

/-- Witness for C5: a 2-entry ramp with a concrete whitepoint at gamma 1. -/
theorem C5_fill_monotone_witness :
    2 ≤ 2 ∧ (0 : ℝ) < 1 ∧ 0 ≤ 1 ∧ 1 < 2 ∧
    (fill_gamma_table (fun _ => 0) 2 { r := 255, g := 128, b := 0 } 1 0 ≤
        fill_gamma_table (fun _ => 0) 2 { r := 255, g := 128, b := 0 } 1 1 ∧
      fill_gamma_table (fun _ => 0) 2 { r := 255, g := 128, b := 0 } 1 (0 + 2) ≤
        fill_gamma_table (fun _ => 0) 2 { r := 255, g := 128, b := 0 } 1 (1 + 2) ∧
      fill_gamma_table (fun _ => 0) 2 { r := 255, g := 128, b := 0 } 1 (0 + 2 * 2) ≤
        fill_gamma_table (fun _ => 0) 2 { r := 255, g := 128, b := 0 } 1 (1 + 2 * 2)) :=
  ⟨by norm_num, by norm_num, by norm_num, by norm_num,
    C5_fill_monotone (fun _ => 0) 2 { r := 255, g := 128, b := 0 } 1
      (by norm_num) (by norm_num) 0 1 (by norm_num) (by norm_num)⟩

end WlSunset
